import Mathlib

/-!
Remote apply path and pair-wise sync of the peer-to-peer editor (`connection.go`).

A shallow embedding of the RPC handlers of `connection.go` (`Insert`, `Delete`,
`SyncPhaseOne`, `SyncPhaseTwo`, `CursorUpdate`) and of `insertPatch`.

Conventions of the embedding:

* the package-level variables the handlers read and write (`seqVector`,
  `localClient`, `peerCursors`, the buffer of the current view) are the fields of
  an explicit `State`; every handler maps the state before the call to the state
  after it, together with what the Go function returned;
* `uint64` values are natural numbers, and the one arithmetic operation performed on
  them (`ReceiverClock+1`) is reduced modulo `2^64`;
* `seqVector` is a `map[string]*seqVEntry`: a key that is absent yields a nil pointer,
  and reading or writing a field through it is a run-time panic.  Panics (also the
  out-of-range slice accesses) are an outcome of their own, next to `return nil` and
  `return errors.New(..)`.  Every key has an entry of its own (no two keys hold the
  same pointer);
* the document, the line array, the id allocator, the operation log and the position
  decoder live in other files of the repository.  The handlers are written against
  the record `Collab` of those operations, so that every statement proved for an
  arbitrary `Collab` holds for whatever those files implement;
* a handler runs to completion before the next one starts (the mutex `linesLock` and
  the scheduling of goroutines are not modelled); the durable writes that the code
  hands to background goroutines are recorded, in spawn order, in `dbQueue`.
-/

namespace Entangle

/-! ## Data model -/

/-- Cursor location `Loc` (two Go `int` fields). -/
structure Loc where
  X : Int
  Y : Int
deriving DecidableEq, Repr

/-- Entry of the clock vector: the value type behind `map[string]*seqVEntry`. -/
structure seqVEntry where
  Clock : Nat
  Dirty : Bool
deriving DecidableEq, Repr

/-- The `pair` carried by insert and delete messages: a position identifier
(`[]Identifier`) and the atom. -/
structure pair (Ident : Type) where
  Pos : List Ident
  Atom : String

/-- Arguments of the `Insert` RPC. -/
structure InsertArgs (Ident : Type) where
  Pair : pair Ident
  Clock : Nat
  Cursor : Loc
  Clientid : String

/-- Arguments of the `Delete` RPC. -/
structure DeleteArgs (Ident : Type) where
  Pair : pair Ident
  Clock : Nat
  Cursor : Loc
  Clientid : String

/-- Arguments of the `SyncPhaseOne` RPC. -/
structure SyncPhaseOneArgs where
  Clientid : String
  SenderClock : Nat
  ReceiverClock : Nat
deriving DecidableEq, Repr

/-- Wire form of an operation; `OpType` is `true` for insert, `false` for delete. -/
structure Operation where
  Atom : String
  OpType : Bool
  Pos : List UInt8
  Clock : Nat
deriving DecidableEq, Repr

/-- Reply of the `SyncPhaseOne` RPC. -/
structure SyncPhaseOneReply where
  PhaseTwo : Bool
  RequesterClock : Nat
  Patch : List Operation
deriving DecidableEq, Repr

/-- Arguments of the `SyncPhaseTwo` RPC. -/
structure SyncPhaseTwoArgs where
  Clientid : String
  Patch : List Operation
deriving DecidableEq, Repr

/-- Arguments of the `CursorUpdate` RPC. -/
structure CursorUpdateArgs where
  Cursor : Loc
  Clock : Nat
  Clientid : String
deriving DecidableEq, Repr

/-- The reply value a handler is entered with: `net/rpc` allocates the zero value of
the reply type for every call. -/
def zeroReply : SyncPhaseOneReply :=
  { PhaseTwo := false, RequesterClock := 0, Patch := [] }

/-- How a call of a Go function ends: `return nil`, `return errors.New(msg)`, or a
run-time panic. -/
inductive Outcome where
  | ok : Outcome
  | error (msg : String) : Outcome
  | panic (msg : String) : Outcome
deriving DecidableEq, Repr

/-- The error value is non-nil. -/
def Outcome.isError : Outcome → Bool
  | .error _ => true
  | _ => false

/-- A durable write handed to a background goroutine. -/
inductive DBWrite (Ident : Type) where
  | insertChar (id : Nat) (atom : String) (pos : List Ident) : DBWrite Ident
  | deleteChar (id : Nat) : DBWrite Ident

/-- The buffer of the current view, `CurView().Buf`: the CRDT document and the line
array that mirrors it. -/
structure Buffer (Doc Mir : Type) where
  Document : Doc
  LineArray : Mir

/-- The package-level state the handlers work on. `docIDs` counts the calls of
`NextDocID` made so far. -/
structure State (Doc Mir Ident : Type) where
  Buf : Buffer Doc Mir
  seqVector : String → Option seqVEntry
  localClient : String
  peerCursors : List Loc
  docIDs : Nat
  dbQueue : List (DBWrite Ident)

/-- The operations of the repository that `connection.go` calls and that are defined in
its other files, taken as total functions of their arguments. `docIndex` is `Document.Index` (a Go `int` and the `exists` flag),
`docDelete` is `Document.delete` restricted to what the callers use (the new
document and the returned id), `Update` is `buf.Update()`, which refreshes the line
count of the line array, `NextDocID k` is the id returned by the call number `k`
of `NextDocID()`, and `ExtractOperationsBetween` reads the operation log. -/
structure Collab (Doc Mir Ident : Type) where
  docInsert : Doc → List Ident → String → Nat → Doc
  docIndex : Doc → List Ident → Int × Bool
  docDelete : Doc → List Ident → Doc × Nat
  FromCharPos : Int → Buffer Doc Mir → Loc
  laInsert : Mir → Loc → List UInt8 → Mir
  laRemove : Mir → Loc → Loc → Mir
  right : Loc → Buffer Doc Mir → Loc
  Update : Mir → Mir
  NewPos : List UInt8 → List Ident
  NextDocID : Nat → Nat
  ExtractOperationsBetween : Nat → Nat → List Operation

variable {Doc Mir Ident : Type}

/-- The conversion `[]byte(s)` of a Go string. -/
def goBytes (s : String) : List UInt8 := s.toUTF8.data.toList

/-- The two field writes `seqVector[k].Clock = c; seqVector[k].Dirty = true` through a
non-nil pointer. -/
def setClock (v : String → Option seqVEntry) (k : String) (c : Nat) :
    String → Option seqVEntry :=
  fun k2 => if k2 = k then some { Clock := c, Dirty := true } else v k2

/-- The writes `peerCursors[0].X = c.X; peerCursors[0].Y = c.Y`; `none` when the slice
is empty (index out of range). -/
def setCursor0 (cs : List Loc) (c : Loc) : Option (List Loc) :=
  match cs with
  | [] => none
  | _ :: rest => some ({ X := c.X, Y := c.Y } :: rest)

/-! ## The handlers -/

/-- `EntangleClient.Insert`: an insert-char message from a peer. -/
def Insert (C : Collab Doc Mir Ident) (st : State Doc Mir Ident) (args : InsertArgs Ident) :
    Outcome × State Doc Mir Ident :=
  let posIdentifier := args.Pair.Pos
  let atom := goBytes args.Pair.Atom
  let peerClock := args.Clock
  let peer := args.Clientid
  if args.Pair.Atom = "" ∨ posIdentifier.length = 0 then (.ok, st)
  else
    let dbID := C.NextDocID st.docIDs
    let st1 := { st with docIDs := st.docIDs + 1 }
    let doc := C.docInsert st1.Buf.Document posIdentifier args.Pair.Atom dbID
    let buf1 : Buffer Doc Mir := { st1.Buf with Document := doc }
    let CRDTIndex := (C.docIndex buf1.Document posIdentifier).1
    let LinePos := C.FromCharPos (CRDTIndex - 1) buf1
    let buf2 : Buffer Doc Mir := { buf1 with LineArray := C.laInsert buf1.LineArray LinePos atom }
    let buf3 : Buffer Doc Mir := { buf2 with LineArray := C.Update buf2.LineArray }
    let st2 := { st1 with Buf := buf3 }
    match st2.seqVector peer with
    | none => (.panic "nil pointer dereference", st2)
    | some _ =>
      let st3 := { st2 with seqVector := setClock st2.seqVector peer peerClock }
      let st4 := { st3 with
        dbQueue := st3.dbQueue ++ [DBWrite.insertChar dbID args.Pair.Atom posIdentifier] }
      match setCursor0 st4.peerCursors args.Cursor with
      | none => (.panic "index out of range", st4)
      | some cs => (.ok, { st4 with peerCursors := cs })

/-- `EntangleClient.Delete`: a delete-char message from a peer. -/
def Delete (C : Collab Doc Mir Ident) (st : State Doc Mir Ident) (args : DeleteArgs Ident) :
    Outcome × State Doc Mir Ident :=
  let posIdentifier := args.Pair.Pos
  let peerClock := args.Clock
  let peer := args.Clientid
  if args.Pair.Atom = "" ∨ posIdentifier.length = 0 then (.ok, st)
  else
    let CRDTIndex := (C.docIndex st.Buf.Document posIdentifier).1
    let del := C.docDelete st.Buf.Document posIdentifier
    let dbID := del.2
    let buf1 : Buffer Doc Mir := { st.Buf with Document := del.1 }
    let LinePos := C.FromCharPos (CRDTIndex - 1) buf1
    let buf2 : Buffer Doc Mir :=
      { buf1 with LineArray := C.laRemove buf1.LineArray LinePos (C.right LinePos buf1) }
    let buf3 : Buffer Doc Mir := { buf2 with LineArray := C.Update buf2.LineArray }
    let st2 := { st with Buf := buf3 }
    match st2.seqVector peer with
    | none => (.panic "nil pointer dereference", st2)
    | some _ =>
      let st3 := { st2 with seqVector := setClock st2.seqVector peer peerClock }
      let st4 := { st3 with dbQueue := st3.dbQueue ++ [DBWrite.deleteChar dbID] }
      match setCursor0 st4.peerCursors args.Cursor with
      | none => (.panic "index out of range", st4)
      | some cs => (.ok, { st4 with peerCursors := cs })

/-- What `SyncPhaseOne` hands back: the returned error, the reply structure as the
handler left it, and the state after the call. -/
structure PhaseOneRet (Doc Mir Ident : Type) where
  err : Outcome
  reply : SyncPhaseOneReply
  state : State Doc Mir Ident

/-- `EntangleClient.SyncPhaseOne`: the receiver side of the first phase of the
pair-wise sync. `reply` is the reply structure the handler is entered with. -/
def SyncPhaseOne (C : Collab Doc Mir Ident) (st : State Doc Mir Ident)
    (args : SyncPhaseOneArgs) (reply : SyncPhaseOneReply) : PhaseOneRet Doc Mir Ident :=
  match st.seqVector args.Clientid with
  | none => { err := .panic "nil pointer dereference", reply := reply, state := st }
  | some reqEntry =>
    let requesterClock := reqEntry.Clock
    let r1 : Option SyncPhaseOneReply :=
      if requesterClock = args.SenderClock then
        some { reply with PhaseTwo := false }
      else if requesterClock < args.SenderClock then
        some { reply with RequesterClock := requesterClock, PhaseTwo := true }
      else none
    match r1 with
    | none => { err := .error "requesterClock > SenderClock", reply := reply, state := st }
    | some reply1 =>
      match st.seqVector st.localClient with
      | none => { err := .panic "nil pointer dereference", reply := reply1, state := st }
      | some localEntry =>
        let localClock := localEntry.Clock
        if localClock = args.ReceiverClock then
          { err := .ok, reply := reply1, state := st }
        else if localClock > args.ReceiverClock then
          { err := .ok
            reply := { reply1 with
              Patch := C.ExtractOperationsBetween ((args.ReceiverClock + 1) % 2 ^ 64) localClock }
            state := st }
        else
          { err := .error "localClock < ReceiverClock", reply := reply1, state := st }

/-- One iteration of the loop of `insertPatch`. -/
def insertPatchOp (C : Collab Doc Mir Ident) (st : State Doc Mir Ident) (op : Operation) :
    State Doc Mir Ident :=
  if op.OpType = true then
    let posIdentifier := C.NewPos op.Pos
    let idx := C.docIndex st.Buf.Document posIdentifier
    if idx.2 = true then st
    else
      let LinePos := C.FromCharPos (idx.1 - 1) st.Buf
      let la := C.laInsert st.Buf.LineArray LinePos (goBytes op.Atom)
      let dbID := C.NextDocID st.docIDs
      let doc := C.docInsert st.Buf.Document posIdentifier op.Atom dbID
      { st with
        Buf := { Document := doc, LineArray := C.Update la }
        docIDs := st.docIDs + 1
        dbQueue := st.dbQueue ++ [DBWrite.insertChar dbID op.Atom posIdentifier] }
  else
    let posIdentifier := C.NewPos op.Pos
    let idx := C.docIndex st.Buf.Document posIdentifier
    if idx.2 = false then st
    else
      let LinePos := C.FromCharPos (idx.1 - 1) st.Buf
      let la := C.laRemove st.Buf.LineArray LinePos (C.right LinePos st.Buf)
      let del := C.docDelete st.Buf.Document posIdentifier
      { st with
        Buf := { Document := del.1, LineArray := C.Update la }
        dbQueue := st.dbQueue ++ [DBWrite.deleteChar del.2] }

/-- `insertPatch`: apply the operations of a patch in order (a nil patch is the empty
list). -/
def insertPatch (C : Collab Doc Mir Ident) (st : State Doc Mir Ident) (patch : List Operation) :
    State Doc Mir Ident :=
  patch.foldl (insertPatchOp C) st

/-- `EntangleClient.SyncPhaseTwo`: apply the patch, then stamp the sender's clock with the
clock of the last operation. The right-hand side `args.Patch[len(args.Patch)-1]` is
evaluated before the store through `seqVector[args.Clientid]`. -/
def SyncPhaseTwo (C : Collab Doc Mir Ident) (st : State Doc Mir Ident) (args : SyncPhaseTwoArgs) :
    Outcome × State Doc Mir Ident :=
  let st1 := insertPatch C st args.Patch
  match args.Patch.getLast? with
  | none => (.panic "index out of range", st1)
  | some last =>
    match st1.seqVector args.Clientid with
    | none => (.panic "nil pointer dereference", st1)
    | some _ => (.ok, { st1 with seqVector := setClock st1.seqVector args.Clientid last.Clock })

/-- `EntangleClient.CursorUpdate`: a cursor update from a peer. -/
def CursorUpdate (st : State Doc Mir Ident) (args : CursorUpdateArgs) :
    Outcome × State Doc Mir Ident :=
  match st.seqVector args.Clientid with
  | none => (.panic "nil pointer dereference", st)
  | some e =>
    if args.Clock ≤ e.Clock then (.ok, st)
    else
      match setCursor0 st.peerCursors args.Cursor with
      | none => (.panic "index out of range", st)
      | some cs => (.ok, { st with peerCursors := cs })

/-! ## The five handlers as one step function -/

/-- A call of one of the RPC handlers, with its arguments. -/
inductive Call (Ident : Type) where
  | insert (args : InsertArgs Ident) : Call Ident
  | delete (args : DeleteArgs Ident) : Call Ident
  | syncPhaseOne (args : SyncPhaseOneArgs) (reply : SyncPhaseOneReply) : Call Ident
  | syncPhaseTwo (args : SyncPhaseTwoArgs) : Call Ident
  | cursorUpdate (args : CursorUpdateArgs) : Call Ident

/-- The state after a handler call. -/
def Call.run (C : Collab Doc Mir Ident) (st : State Doc Mir Ident) :
    Call Ident → State Doc Mir Ident
  | .insert args => (Insert C st args).2
  | .delete args => (Delete C st args).2
  | .syncPhaseOne args reply => (SyncPhaseOne C st args reply).state
  | .syncPhaseTwo args => (SyncPhaseTwo C st args).2
  | .cursorUpdate args => (CursorUpdate st args).2

/-- The peer and the clock value a call stores into the clock vector when it runs to
its end: the message clock of an insert or delete, the clock of the last operation of
a phase-two patch; nothing for the other calls. -/
def Call.stamp : Call Ident → Option (String × Nat)
  | .insert args => some (args.Clientid, args.Clock)
  | .delete args => some (args.Clientid, args.Clock)
  | .syncPhaseOne _ _ => none
  | .syncPhaseTwo args => args.Patch.getLast?.map (fun op => (args.Clientid, op.Clock))
  | .cursorUpdate _ => none

/-- The call does not carry a clock below the one already recorded for its sender. -/
def Call.inOrder (st : State Doc Mir Ident) (c : Call Ident) : Prop :=
  ∀ peer clock e, c.stamp = some (peer, clock) → st.seqVector peer = some e → e.Clock ≤ clock

/-- Modelled from the spec: the document operations of document.go are not part of
connection.go. The part of their contract (spec §4.2) that replaying a patch relies on: after `insert` at a position that had no entry, `Index` reports an entry there;
after `delete` at a position that had an entry, `Index` reports none. -/
structure Collab.DocLaws (C : Collab Doc Mir Ident) : Prop where
  index_insert : ∀ d p a id, (C.docIndex d p).2 = false →
    (C.docIndex (C.docInsert d p a id) p).2 = true
  index_delete : ∀ d p, (C.docIndex d p).2 = true →
    (C.docIndex (C.docDelete d p).1 p).2 = false

/-! ## A concrete document, line array and log -/

/-- Modelled from the spec: the type `Identifier` of document.go is not part of
connection.go. One level of a position identifier: a numeric digit and a replica
tag (spec §3). -/
structure Identifier where
  digit : Nat
  site : Nat
deriving DecidableEq, Repr

/-- Modelled from the spec: the order of levels, on (digit, replica-tag) pairs. -/
def identLt (a b : Identifier) : Bool :=
  decide (a.digit < b.digit) || (decide (a.digit = b.digit) && decide (a.site < b.site))

/-- Modelled from the spec: the total order of position identifiers, lexicographic on
their levels (spec §3). -/
def posLt : List Identifier → List Identifier → Bool
  | [], [] => false
  | [], _ :: _ => true
  | _ :: _, [] => false
  | a :: as, b :: bs => identLt a b || (decide (a = b) && posLt as bs)

/-- Modelled from the spec: a CRDT entry, the triple (P, Atom, Op-id) of spec §3. -/
structure Entry where
  P : List Identifier
  Atom : String
  OpId : Nat
deriving DecidableEq, Repr

/-- Modelled from the spec: the type `Document` of document.go is not part of
connection.go. The document is the collection of entries ordered by P. -/
abbrev Document := List Entry

/-- An entry with position `p` is in the document. -/
def Document.has (d : Document) (p : List Identifier) : Bool :=
  d.any (fun e => decide (e.P = p))

/-- Put an entry at the place its position determines. -/
def Document.place (e : Entry) : Document → Document
  | [] => [e]
  | x :: xs => if posLt e.P x.P then e :: x :: xs else x :: Document.place e xs

/-- Modelled from the spec: `Document.insert` of document.go. Inserts the entry at the
place determined by P; if an entry with P already exists the document is not
modified (spec §4.2). -/
def Document.insert (d : Document) (p : List Identifier) (atom : String) (id : Nat) : Document :=
  if d.has p then d else Document.place { P := p, Atom := atom, OpId := id } d

/-- Modelled from the spec: `Document.Index` of document.go. The rank of P in the P-order
and whether an entry exists at P; the rank is defined also when no entry exists
(spec §4.2). The rank is reported one above the character offset, as its callers in
connection.go say ("CRDT_index is one index higher") and undo with `CRDTIndex-1`. -/
def Document.Index (d : Document) (p : List Identifier) : Int × Bool :=
  (((d.filter (fun e => posLt e.P p)).length : Int) + 1, d.has p)

/-- Modelled from the spec: `Document.delete` of document.go. Removes the entry at P and
returns its op-id; the document is unchanged when no entry is at P (spec §4.2), in
which case the id is the zero value. -/
def Document.delete (d : Document) (p : List Identifier) : Document × Nat :=
  (d.filter (fun e => !decide (e.P = p)),
   match d.find? (fun e => decide (e.P = p)) with
   | some e => e.OpId
   | none => 0)

/-- Modelled from the spec: the line array of the buffer is not part of connection.go.
An ordered sequence of lines, each a sequence of bytes, with the derived line count
that `update` maintains (spec §3, §4.3). -/
structure LineArray where
  lines : List (List UInt8)
  NumLines : Nat
deriving DecidableEq, Repr

/-- Walk the lines: every line but the last accounts for its bytes and its newline. -/
def fromCharPosAux : List (List UInt8) → Nat → Nat → Loc
  | [], _, y => { X := 0, Y := y }
  | [l], i, y => { X := min i l.length, Y := y }
  | l :: l2 :: rest, i, y =>
    if i ≤ l.length then { X := i, Y := y }
    else fromCharPosAux (l2 :: rest) (i - (l.length + 1)) (y + 1)

/-- Modelled from the spec: `FromCharPos` is not part of connection.go. Maps a character
offset to (line, column); an offset past the last atom maps to the end of the last
line (spec §4.3). -/
def LineArray.FromCharPos (i : Int) (buf : Buffer Document LineArray) : Loc :=
  fromCharPosAux buf.LineArray.lines i.toNat 0

/-- Insert one byte at a location and return the location after it; a newline splits
the line. -/
def insertByte (acc : List (List UInt8) × Loc) (b : UInt8) : List (List UInt8) × Loc :=
  let y := acc.2.Y.toNat
  let x := acc.2.X.toNat
  let l := acc.1.getD y []
  if b = 10 then
    (acc.1.take y ++ [l.take x, l.drop x] ++ acc.1.drop (y + 1), { X := 0, Y := (y : Int) + 1 })
  else
    (acc.1.take y ++ [l.take x ++ [b] ++ l.drop x] ++ acc.1.drop (y + 1),
     { X := (x : Int) + 1, Y := y })

/-- Modelled from the spec: `LineArray.insert` is not part of connection.go. Inserts the
bytes at the given (line, column); newlines in the inserted bytes split lines
(spec §4.3). -/
def LineArray.insert (la : LineArray) (pos : Loc) (value : List UInt8) : LineArray :=
  { la with lines := (value.foldl insertByte (la.lines, pos)).1 }

/-- Modelled from the spec: `LineArray.remove` is not part of connection.go. Removes the
bytes between two locations; removing a newline joins lines (spec §4.3). -/
def LineArray.remove (la : LineArray) (start stop : Loc) : LineArray :=
  let sy := start.Y.toNat
  let ty := stop.Y.toNat
  let first := (la.lines.getD sy []).take start.X.toNat
  let rest := (la.lines.getD ty []).drop stop.X.toNat
  { la with lines := la.lines.take sy ++ [first ++ rest] ++ la.lines.drop (ty + 1) }

/-- Modelled from the spec: `Loc.right` is not part of connection.go. The location one
character to the right: the next column, or the start of the next line at the end
of a line that is not the last. -/
def LineArray.right (pos : Loc) (buf : Buffer Document LineArray) : Loc :=
  let y := pos.Y.toNat
  if pos.X.toNat < (buf.LineArray.lines.getD y []).length then { X := pos.X + 1, Y := pos.Y }
  else if y + 1 < buf.LineArray.lines.length then { X := 0, Y := pos.Y + 1 }
  else pos

/-- Modelled from the spec: `Buffer.Update` is not part of connection.go. Refreshes the
derived line count (spec §4.3). -/
def LineArray.Update (la : LineArray) : LineArray :=
  { la with NumLines := la.lines.length }

/-- Modelled from the spec: `NewPos` is not part of connection.go. Decodes a serialized
position, here two bytes (digit, replica tag) per level. -/
def NewPos : List UInt8 → List Identifier
  | d :: s :: rest => { digit := d.toNat, site := s.toNat } :: NewPos rest
  | _ => []

/-- Modelled from the spec: `ExtractOperationsBetween` is not part of connection.go.
All operations of the log with clock in [lo, hi] inclusive, in log order
(spec §4.4). -/
def ExtractOperationsBetween (log : List Operation) (lo hi : Nat) : List Operation :=
  log.filter (fun op => decide (lo ≤ op.Clock) && decide (op.Clock ≤ hi))

/-- The collaborators of connection.go over the concrete document and line array, for
an operation log `log`; `NextDocID` hands out 1, 2, 3, ... -/
def specCollab (log : List Operation) : Collab Document LineArray Identifier where
  docInsert := Document.insert
  docIndex := Document.Index
  docDelete := Document.delete
  FromCharPos := LineArray.FromCharPos
  laInsert := LineArray.insert
  laRemove := LineArray.remove
  right := LineArray.right
  Update := LineArray.Update
  NewPos := NewPos
  NextDocID := fun k => k + 1
  ExtractOperationsBetween := ExtractOperationsBetween log

/-- A clock vector with two entries, for the examples: peer `a` and peer `b`. -/
def twoPeers (a : String) (ca : Nat) (b : String) (cb : Nat) : String → Option seqVEntry :=
  fun k =>
    if k = a then some { Clock := ca, Dirty := false }
    else if k = b then some { Clock := cb, Dirty := false }
    else none

/-- The document "ab": 'a' at position [(1,1)], 'b' at position [(2,1)]. -/
def docAB : Document :=
  [{ P := [{ digit := 1, site := 1 }], Atom := "a", OpId := 1 },
   { P := [{ digit := 2, site := 1 }], Atom := "b", OpId := 2 }]

/-- A replica "B" showing "ab", with peer "A", as `InitPeersInfo` and the sync leave it:
both clock-vector entries present, two cursor slots. -/
def stAB (clockA clockB : Nat) : State Document LineArray Identifier where
  Buf := { Document := docAB, LineArray := { lines := [[97, 98]], NumLines := 1 } }
  seqVector := twoPeers "A" clockA "B" clockB
  localClient := "B"
  peerCursors := [{ X := 0, Y := 0 }, { X := 0, Y := 0 }]
  docIDs := 0
  dbQueue := []

/-- An operation log for the examples: four local operations with clocks 5 to 8. -/
def logB : List Operation :=
  [{ Atom := "p", OpType := true, Pos := [3, 2], Clock := 5 },
   { Atom := "q", OpType := true, Pos := [4, 2], Clock := 6 },
   { Atom := "q", OpType := false, Pos := [4, 2], Clock := 7 },
   { Atom := "r", OpType := true, Pos := [5, 2], Clock := 8 }]

/-- Clock monotonicity across one handler call: every entry of the clock vector is still
there after the call, with a clock at least as large. -/
def ClockMonotone (C : Collab Doc Mir Ident) (st : State Doc Mir Ident) (c : Call Ident) : Prop :=
  ∀ p e, st.seqVector p = some e →
    ∃ e2, (c.run C st).seqVector p = some e2 ∧ e.Clock ≤ e2.Clock

/-- The loop of `insertPatch` skips the operation in this state: an insert whose position
`Index` reports as existing, or a delete whose position it reports as absent. -/
def Skipped (C : Collab Doc Mir Ident) (st : State Doc Mir Ident) (op : Operation) : Prop :=
  (op.OpType = true ∧ (C.docIndex st.Buf.Document (C.NewPos op.Pos)).2 = true) ∨
  (op.OpType = false ∧ (C.docIndex st.Buf.Document (C.NewPos op.Pos)).2 = false)

/-! ## First phase of the pair-wise sync -/

/-- C1: whenever `SyncPhaseOne` returns no error, the receiver has an entry for the
initiator, and with `reqClock` its clock: `PhaseTwo` is true exactly when
`reqClock < SenderClock`, it is false when the two are equal, and when
`reqClock < SenderClock` the reply carries `RequesterClock = reqClock`. -/
theorem syncPhaseOne_phaseTwo (C : Collab Doc Mir Ident) (st : State Doc Mir Ident)
    (args : SyncPhaseOneArgs) (reply : SyncPhaseOneReply)
    (hok : (SyncPhaseOne C st args reply).err = Outcome.ok) :
    ∃ reqEntry, st.seqVector args.Clientid = some reqEntry ∧
      ((SyncPhaseOne C st args reply).reply.PhaseTwo = true ↔
        reqEntry.Clock < args.SenderClock) ∧
      (reqEntry.Clock = args.SenderClock →
        (SyncPhaseOne C st args reply).reply.PhaseTwo = false) ∧
      (reqEntry.Clock < args.SenderClock →
        (SyncPhaseOne C st args reply).reply.RequesterClock = reqEntry.Clock) := by
  unfold SyncPhaseOne at hok ⊢
  cases hreq : st.seqVector args.Clientid with
  | none => simp [hreq] at hok
  | some reqEntry =>
    refine ⟨reqEntry, rfl, ?_⟩
    simp only [hreq] at hok ⊢
    rcases Nat.lt_trichotomy reqEntry.Clock args.SenderClock with hlt | heq | hgt
    · have hne : reqEntry.Clock ≠ args.SenderClock := Nat.ne_of_lt hlt
      simp only [hne, hlt, if_true, if_false] at hok ⊢
      cases hloc : st.seqVector st.localClient with
      | none => simp [hloc] at hok
      | some localEntry =>
        simp only [hloc] at hok ⊢
        split_ifs <;> simp_all
    · simp only [heq, if_true] at hok ⊢
      cases hloc : st.seqVector st.localClient with
      | none => simp [hloc] at hok
      | some localEntry =>
        simp only [hloc] at hok ⊢
        split_ifs <;> simp_all
    · have hne : reqEntry.Clock ≠ args.SenderClock := Nat.ne_of_gt hgt
      have hnlt : ¬ reqEntry.Clock < args.SenderClock := Nat.not_lt.mpr (Nat.le_of_lt hgt)
      simp [hne, hnlt] at hok

/-- Witness of C1: receiver "B" holds Clock["A"] = 3 and is told SenderClock = 5. -/
theorem syncPhaseOne_phaseTwo_witness :
    ∃ reqEntry, (stAB 3 7).seqVector "A" = some reqEntry ∧
      ((SyncPhaseOne (specCollab []) (stAB 3 7) ⟨"A", 5, 7⟩ zeroReply).reply.PhaseTwo = true ↔
        reqEntry.Clock < 5) ∧
      (reqEntry.Clock = 5 →
        (SyncPhaseOne (specCollab []) (stAB 3 7) ⟨"A", 5, 7⟩ zeroReply).reply.PhaseTwo = false) ∧
      (reqEntry.Clock < 5 →
        (SyncPhaseOne (specCollab []) (stAB 3 7) ⟨"A", 5, 7⟩ zeroReply).reply.RequesterClock
          = reqEntry.Clock) :=
  syncPhaseOne_phaseTwo (specCollab []) (stAB 3 7) ⟨"A", 5, 7⟩ zeroReply (by decide)

/-- C2: whenever `SyncPhaseOne`, entered with the fresh reply of the RPC layer, returns no
error, with `localClock` the receiver's own clock (a `uint64`): if
`localClock == ReceiverClock` the reply's patch is empty, and if
`localClock > ReceiverClock` the patch is
`ExtractOperationsBetween(ReceiverClock+1, localClock)`. -/
theorem syncPhaseOne_patch (C : Collab Doc Mir Ident) (st : State Doc Mir Ident)
    (args : SyncPhaseOneArgs) (localEntry : seqVEntry)
    (hloc : st.seqVector st.localClient = some localEntry)
    (huint : localEntry.Clock < 2 ^ 64)
    (hok : (SyncPhaseOne C st args zeroReply).err = Outcome.ok) :
    (localEntry.Clock = args.ReceiverClock →
      (SyncPhaseOne C st args zeroReply).reply.Patch = []) ∧
    (localEntry.Clock > args.ReceiverClock →
      (SyncPhaseOne C st args zeroReply).reply.Patch
        = C.ExtractOperationsBetween (args.ReceiverClock + 1) localEntry.Clock) := by
  unfold SyncPhaseOne at hok ⊢
  cases hreq : st.seqVector args.Clientid with
  | none => simp [hreq] at hok
  | some reqEntry =>
    simp only [hreq, hloc] at hok ⊢
    have hmod : ∀ h : localEntry.Clock > args.ReceiverClock,
        (args.ReceiverClock + 1) % 2 ^ 64 = args.ReceiverClock + 1 := fun h =>
      Nat.mod_eq_of_lt (Nat.lt_of_le_of_lt h huint)
    constructor
    · intro heq
      split_ifs at hok ⊢ <;> simp_all [zeroReply]
    · intro hgt
      have hne : localEntry.Clock ≠ args.ReceiverClock := Nat.ne_of_gt hgt
      rw [hmod hgt]
      split_ifs at hok ⊢ <;> simp_all [zeroReply]

/-- Witness of C2: receiver "B" with own clock 7 is told ReceiverClock = 5. -/
theorem syncPhaseOne_patch_witness :
    ((7 : Nat) = 5 →
      (SyncPhaseOne (specCollab []) (stAB 3 7) ⟨"A", 5, 5⟩ zeroReply).reply.Patch = []) ∧
    ((7 : Nat) > 5 →
      (SyncPhaseOne (specCollab []) (stAB 3 7) ⟨"A", 5, 5⟩ zeroReply).reply.Patch
        = (specCollab []).ExtractOperationsBetween (5 + 1) 7) :=
  syncPhaseOne_patch (specCollab []) (stAB 3 7) ⟨"A", 5, 5⟩ ⟨7, false⟩ (by decide) (by decide)
    (by decide)

/-- C3: on a receiver that has clock-vector entries for the initiator and for itself,
`SyncPhaseOne` returns an error exactly when `Clock[args.Clientid] > SenderClock` or
`Clock[self] < ReceiverClock`, and returns no error on every other input. -/
theorem syncPhaseOne_error_iff (C : Collab Doc Mir Ident) (st : State Doc Mir Ident)
    (args : SyncPhaseOneArgs) (reply : SyncPhaseOneReply) (reqEntry localEntry : seqVEntry)
    (hreq : st.seqVector args.Clientid = some reqEntry)
    (hloc : st.seqVector st.localClient = some localEntry) :
    ((SyncPhaseOne C st args reply).err.isError = true ↔
      (reqEntry.Clock > args.SenderClock ∨ localEntry.Clock < args.ReceiverClock)) ∧
    (¬ (reqEntry.Clock > args.SenderClock ∨ localEntry.Clock < args.ReceiverClock) →
      (SyncPhaseOne C st args reply).err = Outcome.ok) := by
  unfold SyncPhaseOne
  simp only [hreq, hloc]
  rcases Nat.lt_trichotomy reqEntry.Clock args.SenderClock with hlt | heq | hgt
  · have hne : reqEntry.Clock ≠ args.SenderClock := Nat.ne_of_lt hlt
    have hngt : ¬ reqEntry.Clock > args.SenderClock := Nat.not_lt.mpr (Nat.le_of_lt hlt)
    simp only [hne, hlt, if_true, if_false, hngt, false_or]
    rcases Nat.lt_trichotomy localEntry.Clock args.ReceiverClock with h2 | h2 | h2
    · have h3 : localEntry.Clock ≠ args.ReceiverClock := Nat.ne_of_lt h2
      have h4 : ¬ localEntry.Clock > args.ReceiverClock := Nat.not_lt.mpr (Nat.le_of_lt h2)
      simp [h2, h3, h4, Outcome.isError]
    · simp [h2, Outcome.isError]
    · have h3 : localEntry.Clock ≠ args.ReceiverClock := Nat.ne_of_gt h2
      have h4 : ¬ localEntry.Clock < args.ReceiverClock := Nat.not_lt.mpr (Nat.le_of_lt h2)
      simp [h2, h3, h4, Outcome.isError]
  · have hngt : ¬ reqEntry.Clock > args.SenderClock := by rw [heq]; exact Nat.lt_irrefl _
    simp only [heq, if_true, hngt, false_or]
    rw [← heq]
    rcases Nat.lt_trichotomy localEntry.Clock args.ReceiverClock with h2 | h2 | h2
    · have h3 : localEntry.Clock ≠ args.ReceiverClock := Nat.ne_of_lt h2
      have h4 : ¬ localEntry.Clock > args.ReceiverClock := Nat.not_lt.mpr (Nat.le_of_lt h2)
      simp [h2, h3, h4, Outcome.isError]
    · simp [h2, Outcome.isError]
    · have h3 : localEntry.Clock ≠ args.ReceiverClock := Nat.ne_of_gt h2
      have h4 : ¬ localEntry.Clock < args.ReceiverClock := Nat.not_lt.mpr (Nat.le_of_lt h2)
      simp [h2, h3, h4, Outcome.isError]
  · have hne : reqEntry.Clock ≠ args.SenderClock := Nat.ne_of_gt hgt
    have hnlt : ¬ reqEntry.Clock < args.SenderClock := Nat.not_lt.mpr (Nat.le_of_lt hgt)
    simp [hne, hnlt, hgt, Outcome.isError]

/-- Witness of C3, the divergence scenario: the initiator reports SenderClock = 10 while
the receiver holds Clock[initiator] = 12; the call fails. -/
theorem syncPhaseOne_error_iff_witness :
    (SyncPhaseOne (specCollab []) (stAB 12 7) ⟨"A", 10, 7⟩ zeroReply).err.isError = true :=
  (syncPhaseOne_error_iff (specCollab []) (stAB 12 7) ⟨"A", 10, 7⟩ zeroReply ⟨12, false⟩
    ⟨7, false⟩ (by decide) (by decide)).1.mpr (Or.inl (by decide))

theorem phaseOne_keeps_state (C : Collab Doc Mir Ident) (st : State Doc Mir Ident)
    (args : SyncPhaseOneArgs) (reply : SyncPhaseOneReply) :
    (SyncPhaseOne C st args reply).state = st := by
  unfold SyncPhaseOne
  cases st.seqVector args.Clientid with
  | none => rfl
  | some reqEntry =>
    cases st.seqVector st.localClient with
    | none => dsimp only; split_ifs <;> rfl
    | some localEntry => dsimp only; split_ifs <;> rfl

/-- C4: `SyncPhaseOne` leaves the receiver's state as it found it on every input, whether
it returns no error, fails with a divergence error, or stops on a missing entry: the
document, the line array, the whole clock vector (clocks and dirty flags) and the
peer cursors after the call are those before it. -/
theorem syncPhaseOne_state_unchanged (C : Collab Doc Mir Ident) (st : State Doc Mir Ident)
    (args : SyncPhaseOneArgs) (reply : SyncPhaseOneReply) :
    (SyncPhaseOne C st args reply).state = st ∧
    (SyncPhaseOne C st args reply).state.Buf.Document = st.Buf.Document ∧
    (SyncPhaseOne C st args reply).state.Buf.LineArray = st.Buf.LineArray ∧
    (SyncPhaseOne C st args reply).state.seqVector = st.seqVector ∧
    (SyncPhaseOne C st args reply).state.peerCursors = st.peerCursors := by
  rw [phaseOne_keeps_state C st args reply]
  exact ⟨rfl, rfl, rfl, rfl, rfl⟩

/-- C8 as stated fails: receiver "B" with Clock["A"] = 10 and Clock["B"] = 7, called with
SenderClock = 10 and ReceiverClock = 5, does not reply PhaseTwo = true with
RequesterClock = 10. -/
theorem phaseTwoOnly_as_stated_refuted :
    ¬ ((SyncPhaseOne (specCollab logB) (stAB 10 7) ⟨"A", 10, 5⟩ zeroReply).err = Outcome.ok ∧
      (SyncPhaseOne (specCollab logB) (stAB 10 7) ⟨"A", 10, 5⟩ zeroReply).reply.PhaseTwo = true ∧
      (SyncPhaseOne (specCollab logB) (stAB 10 7) ⟨"A", 10, 5⟩ zeroReply).reply.RequesterClock
        = 10 ∧
      (SyncPhaseOne (specCollab logB) (stAB 10 7) ⟨"A", 10, 5⟩ zeroReply).reply.Patch
        = (specCollab logB).ExtractOperationsBetween 6 7) := by
  decide

/-- C8, amended: when the receiver holds Clock[A] = 10 and Clock[B] = 7 and receives
`SyncPhaseOne` with SenderClock = 10 and ReceiverClock = 5, the handler returns no
error and its reply has PhaseTwo = false, RequesterClock left at the zero value of the
fresh reply, and Patch = ExtractOperationsBetween(6, 7). -/
theorem scenario_phaseTwoOnly (C : Collab Doc Mir Ident) (st : State Doc Mir Ident)
    (args : SyncPhaseOneArgs) (dirtyA dirtyB : Bool)
    (hA : st.seqVector args.Clientid = some { Clock := 10, Dirty := dirtyA })
    (hB : st.seqVector st.localClient = some { Clock := 7, Dirty := dirtyB })
    (hS : args.SenderClock = 10) (hR : args.ReceiverClock = 5) :
    (SyncPhaseOne C st args zeroReply).err = Outcome.ok ∧
    (SyncPhaseOne C st args zeroReply).reply.PhaseTwo = false ∧
    (SyncPhaseOne C st args zeroReply).reply.RequesterClock = 0 ∧
    (SyncPhaseOne C st args zeroReply).reply.Patch = C.ExtractOperationsBetween 6 7 := by
  unfold SyncPhaseOne
  simp [hA, hB, hS, hR, zeroReply]

/-- Witness of the amended C8 on the replica "B" with the log `logB`: the patch is the two
operations with clocks 6 and 7. -/
theorem scenario_phaseTwoOnly_witness :
    (SyncPhaseOne (specCollab logB) (stAB 10 7) ⟨"A", 10, 5⟩ zeroReply).err = Outcome.ok ∧
    (SyncPhaseOne (specCollab logB) (stAB 10 7) ⟨"A", 10, 5⟩ zeroReply).reply.PhaseTwo = false ∧
    (SyncPhaseOne (specCollab logB) (stAB 10 7) ⟨"A", 10, 5⟩ zeroReply).reply.RequesterClock = 0 ∧
    (SyncPhaseOne (specCollab logB) (stAB 10 7) ⟨"A", 10, 5⟩ zeroReply).reply.Patch
      = (specCollab logB).ExtractOperationsBetween 6 7 :=
  scenario_phaseTwoOnly (specCollab logB) (stAB 10 7) ⟨"A", 10, 5⟩ false false (by decide)
    (by decide) rfl rfl

/-! ## Cursor updates -/

/-- C5: on a receiver that has a clock-vector entry for the sender and a cursor slot for
the peer, `CursorUpdate` returns no error; if `args.Clock <= Clock[args.Clientid]` it
changes nothing at all, otherwise the peer cursor `peerCursors[0]` becomes
`(args.Cursor.X, args.Cursor.Y)` and the other slots stay; in both cases the document,
the line array and the clock vector are unchanged. -/
theorem cursorUpdate_spec (st : State Doc Mir Ident) (args : CursorUpdateArgs)
    (e : seqVEntry) (c : Loc) (cs : List Loc)
    (he : st.seqVector args.Clientid = some e) (hc : st.peerCursors = c :: cs) :
    (CursorUpdate st args).1 = Outcome.ok ∧
    (args.Clock ≤ e.Clock → (CursorUpdate st args).2 = st) ∧
    (¬ args.Clock ≤ e.Clock →
      (CursorUpdate st args).2.peerCursors
        = { X := args.Cursor.X, Y := args.Cursor.Y } :: cs) ∧
    (CursorUpdate st args).2.Buf = st.Buf ∧
    (CursorUpdate st args).2.seqVector = st.seqVector := by
  unfold CursorUpdate
  simp only [he, hc, setCursor0]
  by_cases h : args.Clock ≤ e.Clock
  · simp [h]
  · simp [h]

/-- Witness of C5, the staleness scenario: an update stamped clock 4 arrives when the
receiver holds Clock[peer] = 7; it is dropped. -/
theorem cursorUpdate_spec_witness :
    (CursorUpdate (stAB 7 2) ⟨⟨3, 1⟩, 4, "A"⟩).1 = Outcome.ok ∧
    (CursorUpdate (stAB 7 2) ⟨⟨3, 1⟩, 4, "A"⟩).2 = stAB 7 2 :=
  have h := cursorUpdate_spec (stAB 7 2) ⟨⟨3, 1⟩, 4, "A"⟩ ⟨7, false⟩ ⟨0, 0⟩ [⟨0, 0⟩]
    (by decide) rfl
  ⟨h.1, h.2.1 (by decide)⟩

/-! ## Patch insertion -/

theorem insertPatchOp_seqVector (C : Collab Doc Mir Ident) (st : State Doc Mir Ident)
    (op : Operation) : (insertPatchOp C st op).seqVector = st.seqVector := by
  unfold insertPatchOp
  dsimp only
  split_ifs <;> rfl

theorem insertPatch_seqVector (C : Collab Doc Mir Ident) (patch : List Operation) :
    ∀ st : State Doc Mir Ident, (insertPatch C st patch).seqVector = st.seqVector := by
  induction patch with
  | nil => intro st; rfl
  | cons op rest ih =>
    intro st
    have h := ih (insertPatchOp C st op)
    simp only [insertPatch, List.foldl_cons] at h ⊢
    rw [h, insertPatchOp_seqVector]

theorem insertPatch_append (C : Collab Doc Mir Ident) (st : State Doc Mir Ident)
    (xs ys : List Operation) :
    insertPatch C st (xs ++ ys) = insertPatch C (insertPatch C st xs) ys := by
  simp [insertPatch, List.foldl_append]

theorem insertPatchOp_of_skipped (C : Collab Doc Mir Ident) (st : State Doc Mir Ident)
    (op : Operation) (h : Skipped C st op) : insertPatchOp C st op = st := by
  unfold insertPatchOp
  rcases h with ⟨h1, h2⟩ | ⟨h1, h2⟩
  · simp [h1, h2]
  · simp [h1, h2]

theorem skipped_after_insertPatchOp (C : Collab Doc Mir Ident) (hlaws : C.DocLaws)
    (st : State Doc Mir Ident) (op : Operation) : Skipped C (insertPatchOp C st op) op := by
  cases hty : op.OpType with
  | true =>
    cases hex : (C.docIndex st.Buf.Document (C.NewPos op.Pos)).2 with
    | true =>
      rw [insertPatchOp_of_skipped C st op (Or.inl ⟨hty, hex⟩)]
      exact Or.inl ⟨hty, hex⟩
    | false =>
      refine Or.inl ⟨hty, ?_⟩
      unfold insertPatchOp
      simp only [hty, hex, if_true]
      exact hlaws.index_insert _ _ _ _ hex
  | false =>
    cases hex : (C.docIndex st.Buf.Document (C.NewPos op.Pos)).2 with
    | false =>
      rw [insertPatchOp_of_skipped C st op (Or.inr ⟨hty, hex⟩)]
      exact Or.inr ⟨hty, hex⟩
    | true =>
      refine Or.inr ⟨hty, ?_⟩
      unfold insertPatchOp
      simp only [hty, hex]
      exact hlaws.index_delete _ _ hex

theorem has_place (e : Entry) (d : Document) : Document.has (Document.place e d) e.P = true := by
  induction d with
  | nil => simp [Document.place, Document.has]
  | cons x xs ih =>
    unfold Document.place
    split_ifs
    · simp [Document.has]
    · simp only [Document.has, List.any_cons] at ih ⊢
      rw [ih]
      simp

theorem specCollab_docLaws (log : List Operation) : (specCollab log).DocLaws where
  index_insert := by
    intro d p a id h
    simp only [specCollab, Document.Index] at h ⊢
    simp only [Document.insert, h]
    exact has_place { P := p, Atom := a, OpId := id } d
  index_delete := by
    intro d p _
    simp [specCollab, Document.Index, Document.delete, Document.has]

/-- C9: when `insertPatch` reaches, after any part `pre` of a patch, an insert whose
position `Index` reports as existing or a delete whose position it reports as absent,
that operation leaves the whole state as it is (document, line array, the count of
ids requested from `NextDocID`, the queue of durable writes), so the patch ends in
the state it ends in without the operation. And for a document that keeps its
contract (`DocLaws`), applying a one-operation patch a second time changes nothing:
twice is the same state, hence the same document and line array, as once. -/
theorem insertPatch_skips (C : Collab Doc Mir Ident) (st : State Doc Mir Ident)
    (pre post : List Operation) (op : Operation) :
    (Skipped C (insertPatch C st pre) op →
      insertPatchOp C (insertPatch C st pre) op = insertPatch C st pre ∧
      insertPatch C st (pre ++ op :: post) = insertPatch C st (pre ++ post)) ∧
    (C.DocLaws →
      insertPatch C (insertPatch C st [op]) [op] = insertPatch C st [op] ∧
      (insertPatch C (insertPatch C st [op]) [op]).Buf.Document
        = (insertPatch C st [op]).Buf.Document ∧
      (insertPatch C (insertPatch C st [op]) [op]).Buf.LineArray
        = (insertPatch C st [op]).Buf.LineArray) := by
  constructor
  · intro h
    have h1 := insertPatchOp_of_skipped C _ op h
    refine ⟨h1, ?_⟩
    rw [insertPatch_append, insertPatch_append]
    simp only [insertPatch, List.foldl_cons] at h1 ⊢
    rw [h1]
  · intro hlaws
    have h : insertPatch C (insertPatch C st [op]) [op] = insertPatch C st [op] := by
      simp only [insertPatch, List.foldl_cons, List.foldl_nil]
      exact insertPatchOp_of_skipped C _ op (skipped_after_insertPatchOp C hlaws st op)
    rw [h]
    exact ⟨rfl, rfl, rfl⟩

/-- Witness of C9 on the replica showing "ab": after a first insert at [(1,5)], the
insert at the existing position [(1,1)] is skipped; and the insert at the new position
[(1,5)] applied twice is the insert applied once. -/
theorem insertPatch_skips_witness :
    Skipped (specCollab []) (insertPatch (specCollab []) (stAB 7 2) [⟨"X", true, [1, 5], 8⟩])
      ⟨"a", true, [1, 1], 9⟩ ∧
    insertPatch (specCollab []) (stAB 7 2)
        ([⟨"X", true, [1, 5], 8⟩] ++ ⟨"a", true, [1, 1], 9⟩ :: [⟨"b", false, [2, 1], 10⟩])
      = insertPatch (specCollab []) (stAB 7 2)
        ([⟨"X", true, [1, 5], 8⟩] ++ [⟨"b", false, [2, 1], 10⟩]) ∧
    (specCollab []).DocLaws ∧
    insertPatch (specCollab []) (insertPatch (specCollab []) (stAB 7 2) [⟨"X", true, [1, 5], 8⟩])
        [⟨"X", true, [1, 5], 8⟩]
      = insertPatch (specCollab []) (stAB 7 2) [⟨"X", true, [1, 5], 8⟩] :=
  have hsk : Skipped (specCollab [])
      (insertPatch (specCollab []) (stAB 7 2) [⟨"X", true, [1, 5], 8⟩])
      ⟨"a", true, [1, 1], 9⟩ := Or.inl ⟨rfl, by decide⟩
  ⟨hsk,
   ((insertPatch_skips (specCollab []) (stAB 7 2) [⟨"X", true, [1, 5], 8⟩]
      [⟨"b", false, [2, 1], 10⟩] ⟨"a", true, [1, 1], 9⟩).1 hsk).2,
   specCollab_docLaws [],
   ((insertPatch_skips (specCollab []) (stAB 7 2) [] [] ⟨"X", true, [1, 5], 8⟩).2
      (specCollab_docLaws [])).1⟩

/-! ## Single-operation handlers -/

/-- C6, evaluated on the replica showing "ab". An `Insert` message for the position
[(1,1)], which has an entry, returns no error and leaves the document as it is, but
its byte goes into the line array once more ("aab"). A `Delete` message for the
position [(1,5)], which has no entry, leaves the document as it is, but removes the
byte 'b' from the line array. And an `Insert` message for the new position [(1,5)]
applied twice leaves "aXXb" in the line array where one application leaves "aXb". -/
theorem insert_delete_mirror_not_idempotent :
    Document.has docAB [⟨1, 1⟩] = true ∧
    (Insert (specCollab []) (stAB 7 2) ⟨⟨[⟨1, 1⟩], "a"⟩, 8, ⟨1, 0⟩, "A"⟩).1 = Outcome.ok ∧
    (Insert (specCollab []) (stAB 7 2) ⟨⟨[⟨1, 1⟩], "a"⟩, 8, ⟨1, 0⟩, "A"⟩).2.Buf.Document
      = docAB ∧
    (stAB 7 2).Buf.LineArray = ⟨[[97, 98]], 1⟩ ∧
    (Insert (specCollab []) (stAB 7 2) ⟨⟨[⟨1, 1⟩], "a"⟩, 8, ⟨1, 0⟩, "A"⟩).2.Buf.LineArray
      = ⟨[[97, 97, 98]], 1⟩ ∧
    Document.has docAB [⟨1, 5⟩] = false ∧
    (Delete (specCollab []) (stAB 7 2) ⟨⟨[⟨1, 5⟩], "X"⟩, 8, ⟨1, 0⟩, "A"⟩).1 = Outcome.ok ∧
    (Delete (specCollab []) (stAB 7 2) ⟨⟨[⟨1, 5⟩], "X"⟩, 8, ⟨1, 0⟩, "A"⟩).2.Buf.Document
      = docAB ∧
    (Delete (specCollab []) (stAB 7 2) ⟨⟨[⟨1, 5⟩], "X"⟩, 8, ⟨1, 0⟩, "A"⟩).2.Buf.LineArray
      = ⟨[[97]], 1⟩ ∧
    (Insert (specCollab []) (stAB 7 2) ⟨⟨[⟨1, 5⟩], "X"⟩, 8, ⟨1, 0⟩, "A"⟩).2.Buf.LineArray
      = ⟨[[97, 88, 98]], 1⟩ ∧
    (Insert (specCollab [])
        (Insert (specCollab []) (stAB 7 2) ⟨⟨[⟨1, 5⟩], "X"⟩, 8, ⟨1, 0⟩, "A"⟩).2
        ⟨⟨[⟨1, 5⟩], "X"⟩, 8, ⟨1, 0⟩, "A"⟩).2.Buf.LineArray
      = ⟨[[97, 88, 88, 98]], 1⟩ := by
  decide

/-- C10, at the empty patch: for every state and every sender, `SyncPhaseTwo` called with
an empty patch does not return; the access `args.Patch[len(args.Patch)-1]` is out of
range and the handler panics, with the state as it was. -/
theorem syncPhaseTwo_empty_patch_panics (C : Collab Doc Mir Ident) (st : State Doc Mir Ident)
    (clientid : String) :
    (SyncPhaseTwo C st { Clientid := clientid, Patch := [] }).1
      = Outcome.panic "index out of range" ∧
    (SyncPhaseTwo C st { Clientid := clientid, Patch := [] }).2 = st :=
  ⟨rfl, rfl⟩

/-- For a patch that is not empty, on a receiver that has an entry for the sender,
`SyncPhaseTwo` returns no error and leaves the sender's entry at the clock of the last
operation of the patch, marked dirty. -/
theorem SyncPhaseTwo_nonempty (C : Collab Doc Mir Ident) (st : State Doc Mir Ident)
    (args : SyncPhaseTwoArgs) (last : Operation) (e : seqVEntry)
    (hl : args.Patch.getLast? = some last) (he : st.seqVector args.Clientid = some e) :
    (SyncPhaseTwo C st args).1 = Outcome.ok ∧
    (SyncPhaseTwo C st args).2.seqVector args.Clientid
      = some { Clock := last.Clock, Dirty := true } := by
  unfold SyncPhaseTwo
  simp [hl, insertPatch_seqVector C _ st, he, setClock]

/-! ## Clock monotonicity -/

theorem setClock_monotone (v : String → Option seqVEntry) (k : String) (c : Nat)
    (hk : ∀ e, v k = some e → e.Clock ≤ c) (p : String) (e : seqVEntry) (hp : v p = some e) :
    ∃ e2, setClock v k c p = some e2 ∧ e.Clock ≤ e2.Clock := by
  unfold setClock
  by_cases h : p = k
  · subst h
    exact ⟨{ Clock := c, Dirty := true }, by simp, hk e hp⟩
  · exact ⟨e, by simp [h, hp], le_refl _⟩

theorem Insert_seqVector (C : Collab Doc Mir Ident) (st : State Doc Mir Ident)
    (args : InsertArgs Ident) :
    (Insert C st args).2.seqVector = st.seqVector ∨
    (Insert C st args).2.seqVector = setClock st.seqVector args.Clientid args.Clock := by
  unfold Insert
  dsimp only
  split_ifs
  · exact Or.inl rfl
  · cases st.seqVector args.Clientid with
    | none => exact Or.inl rfl
    | some e =>
      dsimp only
      cases setCursor0 st.peerCursors args.Cursor with
      | none => exact Or.inr rfl
      | some cs => exact Or.inr rfl

theorem Delete_seqVector (C : Collab Doc Mir Ident) (st : State Doc Mir Ident)
    (args : DeleteArgs Ident) :
    (Delete C st args).2.seqVector = st.seqVector ∨
    (Delete C st args).2.seqVector = setClock st.seqVector args.Clientid args.Clock := by
  unfold Delete
  dsimp only
  split_ifs
  · exact Or.inl rfl
  · cases st.seqVector args.Clientid with
    | none => exact Or.inl rfl
    | some e =>
      dsimp only
      cases setCursor0 st.peerCursors args.Cursor with
      | none => exact Or.inr rfl
      | some cs => exact Or.inr rfl

theorem SyncPhaseTwo_seqVector (C : Collab Doc Mir Ident) (st : State Doc Mir Ident)
    (args : SyncPhaseTwoArgs) :
    (SyncPhaseTwo C st args).2.seqVector = st.seqVector ∨
    ∃ last, args.Patch.getLast? = some last ∧
      (SyncPhaseTwo C st args).2.seqVector = setClock st.seqVector args.Clientid last.Clock := by
  unfold SyncPhaseTwo
  dsimp only
  cases hl : args.Patch.getLast? with
  | none => exact Or.inl (insertPatch_seqVector C _ st)
  | some last =>
    dsimp only
    rw [insertPatch_seqVector C _ st]
    cases st.seqVector args.Clientid with
    | none => exact Or.inl (insertPatch_seqVector C _ st)
    | some e =>
      refine Or.inr ⟨last, rfl, ?_⟩
      dsimp only

theorem CursorUpdate_seqVector (st : State Doc Mir Ident) (args : CursorUpdateArgs) :
    (CursorUpdate st args).2.seqVector = st.seqVector := by
  unfold CursorUpdate
  cases st.seqVector args.Clientid with
  | none => rfl
  | some e =>
    dsimp only
    split_ifs
    · rfl
    · cases setCursor0 st.peerCursors args.Cursor with
      | none => rfl
      | some cs => rfl

/-- C7 as stated fails: an `Insert` message stamped clock 3 that arrives when the receiver
holds Clock["A"] = 7 takes Clock["A"] down to 3. -/
theorem clock_monotone_refuted :
    ¬ ClockMonotone (specCollab []) (stAB 7 2)
      (Call.insert ⟨⟨[⟨1, 5⟩], "X"⟩, 3, ⟨1, 0⟩, "A"⟩) := by
  intro h
  obtain ⟨e2, h1, h2⟩ := h "A" ⟨7, false⟩ (by decide)
  have h3 : (Call.run (specCollab []) (stAB 7 2)
      (Call.insert ⟨⟨[⟨1, 5⟩], "X"⟩, 3, ⟨1, 0⟩, "A"⟩)).seqVector "A" = some ⟨3, true⟩ := by
    decide
  rw [h3] at h1
  cases h1
  exact absurd h2 (by decide)

/-- C7, amended: for every peer p and every call of one of the handlers `Insert`, `Delete`,
`SyncPhaseOne`, `SyncPhaseTwo`, `CursorUpdate`, from any state, the entry Clock[p] is
still there after the call with a value at least the one before, provided that the
clock the call carries for its sender (the message clock of an insert or delete, the
clock of the last operation of a phase-two patch) is not below the clock already
recorded for that sender; `SyncPhaseOne` and `CursorUpdate` carry none and qualify
always. -/
theorem clock_monotone_inOrder (C : Collab Doc Mir Ident) (st : State Doc Mir Ident)
    (c : Call Ident) (h : Call.inOrder st c) : ClockMonotone C st c := by
  intro p e hp
  have hsame : ∀ s : State Doc Mir Ident, s.seqVector = st.seqVector →
      ∃ e2, s.seqVector p = some e2 ∧ e.Clock ≤ e2.Clock := fun s hs =>
    ⟨e, by rw [hs]; exact hp, le_refl _⟩
  cases c with
  | insert args =>
    rcases Insert_seqVector C st args with h1 | h1
    · exact hsame _ h1
    · simp only [Call.run]
      rw [h1]
      exact setClock_monotone _ _ _ (fun e1 he1 => h args.Clientid args.Clock e1 rfl he1) p e hp
  | delete args =>
    rcases Delete_seqVector C st args with h1 | h1
    · exact hsame _ h1
    · simp only [Call.run]
      rw [h1]
      exact setClock_monotone _ _ _ (fun e1 he1 => h args.Clientid args.Clock e1 rfl he1) p e hp
  | syncPhaseOne args reply =>
    exact hsame _ (congrArg State.seqVector (phaseOne_keeps_state C st args reply))
  | syncPhaseTwo args =>
    rcases SyncPhaseTwo_seqVector C st args with h1 | ⟨last, hl, h1⟩
    · exact hsame _ h1
    · simp only [Call.run]
      rw [h1]
      exact setClock_monotone _ _ _
        (fun e1 he1 => h args.Clientid last.Clock e1 (by simp [Call.stamp, hl]) he1) p e hp
  | cursorUpdate args => exact hsame _ (CursorUpdate_seqVector st args)

/-- Witness of the amended C7: an `Insert` message stamped clock 8 arrives when the receiver
holds Clock["A"] = 7. -/
theorem clock_monotone_inOrder_witness :
    ClockMonotone (specCollab []) (stAB 7 2) (Call.insert ⟨⟨[⟨1, 5⟩], "X"⟩, 8, ⟨1, 0⟩, "A"⟩) :=
  clock_monotone_inOrder (specCollab []) (stAB 7 2)
    (Call.insert ⟨⟨[⟨1, 5⟩], "X"⟩, 8, ⟨1, 0⟩, "A"⟩)
    (by
      intro peer clock e h1 h2
      simp only [Call.stamp, Option.some.injEq, Prod.mk.injEq] at h1
      obtain ⟨hpeer, hclock⟩ := h1
      subst hpeer hclock
      have h3 : (stAB 7 2).seqVector "A" = some ⟨7, false⟩ := by decide
      rw [h3] at h2
      cases h2
      decide)

end Entangle
